import Mathlib

/-!
Verification of the rustlog log storage engine: a shallow embedding of the
message schema (`src/logs/schema.rs`), the web log responders
(`src/web/responders/logs.rs`), and the reindexer (`src/reindexer.rs`).

Rust strings are embedded as `List Char` (one `Char` per byte; all inputs of
interest are ASCII, so byte offsets and lengths coincide with list indices).
Fallible Rust code returning `anyhow::Result` is embedded as `Except`.
-/

namespace Rustlog

/-- Rust `str::trim_end`: drop trailing whitespace characters. -/
def trimEnd (cs : List Char) : List Char :=
  (cs.reverse.dropWhile Char.isWhitespace).reverse

/-- Split a list at the first occurrence of `sep`: returns the part before it
and, when `sep` occurs, the part after it (the separator itself is consumed). -/
def breakChar (sep : Char) : List Char → List Char × Option (List Char)
  | [] => ([], none)
  | c :: rest =>
    if c = sep then ([], some rest)
    else
      let (t, r) := breakChar sep rest
      (c :: t, r)

/-- Split into the groups delimited by `sep` (like Rust `str::split`). -/
def splitOnChar (sep : Char) : List Char → List (List Char)
  | [] => [[]]
  | c :: rest =>
    match splitOnChar sep rest with
    | [] => [[c]]
    | g :: gs => if c = sep then [] :: g :: gs else (c :: g) :: gs

/-- Modelled from the spec: the chat-protocol tag-value escape scheme
(`\s` → space, `\n` → LF, `\:` → `;`, `\\` → `\`); the decoder of the
`twitch` crate (`twitch::unescape`), which is not under `src/`. Unknown
escapes are kept verbatim. -/
def unescape : List Char → List Char
  | [] => []
  | ['\\'] => ['\\']
  | '\\' :: c :: rest =>
    if c = 's' then ' ' :: unescape rest
    else if c = 'n' then '\n' :: unescape rest
    else if c = ':' then ';' :: unescape rest
    else if c = '\\' then '\\' :: unescape rest
    else '\\' :: c :: unescape rest
  | c :: rest => c :: unescape rest

/-- First-match lookup in an association list of tags. -/
def lookupTag (k : List Char) : List (List Char × List Char) → Option (List Char)
  | [] => none
  | (k', v) :: rest => if k' = k then some v else lookupTag k rest

/-- Modelled from the spec: the `@tags` block is "semicolon-separated
`key=value`" pairs (values kept raw here; they are escape-decoded on demand). -/
def parseTags (cs : List Char) : List (List Char × List Char) :=
  (splitOnChar ';' cs).map fun g =>
    let (k, v) := breakChar '=' g
    (k, v.getD [])

/-- The chat-protocol commands the schema dispatches on. The data model lists
kinds PrivMsg, ClearChat, UserNotice and ClearMsg; every other command keyword
is carried verbatim. -/
inductive Command where
  | privmsg
  | clearchat
  | usernotice
  | clearmsg
  | other (keyword : List Char)
deriving DecidableEq, Repr

/-- Modelled from the spec: the structured view of one chat-protocol line that
the external parser crates hand to the schema and to the reindexer (tags block,
optional prefix nick, command keyword, optional channel, optional trailing
parameters, and the raw line). -/
structure IrcMsg where
  tags : Option (List (List Char × List Char))
  prefixNick : Option (Option (List Char))
  command : Command
  channel : Option (List Char)
  params : Option (List Char)
  raw : List Char
deriving DecidableEq, Repr

/-- A command keyword is valid when it is a nonempty alphabetic word or a
three-digit numeric. -/
def validCommandTok (cs : List Char) : Bool :=
  !cs.isEmpty && (cs.all Char.isAlpha || (cs.length = 3 && cs.all Char.isDigit))

def decodeCommand (cs : List Char) : Command :=
  if cs = "PRIVMSG".toList then .privmsg
  else if cs = "CLEARCHAT".toList then .clearchat
  else if cs = "USERNOTICE".toList then .usernotice
  else if cs = "CLEARMSG".toList then .clearmsg
  else .other cs

def nickOf (tok : List Char) : Option (List Char) :=
  if tok.isEmpty then none else some (tok.takeWhile (· ≠ '!'))

/-- Modelled from the spec: "Parses the chat-protocol frame: leading `@tags `
block (semicolon-separated `key=value` ...), optional `:prefix `, a command
keyword, and parameters." This stands in for the external `twitch` and
`twitch_irc` line parsers, which are not under `src/`. A line whose command
keyword is missing or invalid (in particular one that contains an embedded
newline) is malformed and yields `none`. -/
def parseIrcLine (raw : List Char) : Option IrcMsg := do
  let (tags, s1) ←
    match raw with
    | '@' :: rest =>
      match breakChar ' ' rest with
      | (tok, some s1) => some (some (parseTags tok), s1)
      | (_, none) => none
    | _ => some (none, raw)
  let (pn, s2) ←
    match s1 with
    | ':' :: rest =>
      match breakChar ' ' rest with
      | (tok, some s2) => some (some (nickOf tok), s2)
      | (_, none) => none
    | _ => some (none, s1)
  let (cmdTok, s3) := breakChar ' ' s2
  if validCommandTok cmdTok then
    let (chan, s4) :=
      match s3 with
      | some ('#' :: chrest) =>
        let (ct, r) := breakChar ' ' chrest
        (some ct, r)
      | some restp => (none, some restp)
      | none => (none, none)
    let params : Option (List Char) :=
      match s4 with
      | none => none
      | some [] => none
      | some (':' :: ps) => some ps
      | some ps => some ps
    some ⟨tags, pn, decodeCommand cmdTok, chan, params, raw⟩
  else none

/-! ## Message schema (`src/logs/schema.rs`) -/

/-- The `MessageType` enum of `schema.rs` with its `repr(i8)` discriminants. -/
inductive MessageType where
  | privMsg
  | clearChat
  | userNotice
  | clearMsg
deriving DecidableEq, Repr

/-- The `repr(i8)` value of each message kind. -/
def MessageType.toInt : MessageType → Int
  | .privMsg => 1
  | .clearChat => 2
  | .userNotice => 4
  | .clearMsg => 13

/-- A UTC calendar timestamp at millisecond precision (the embedding of
`chrono::DateTime<Utc>`). -/
structure UtcDateTime where
  year : Int
  month : Int
  day : Int
  hour : Int
  minute : Int
  second : Int
  millisecond : Int
deriving DecidableEq, Repr

/-- Civil date from days since 1970-01-01 (proleptic Gregorian). Divisions are
truncating, matching the standard algorithm's use of them on the adjusted
nonnegative intermediate values. -/
def civilFromDays (z0 : Int) : Int × Int × Int :=
  let z := z0 + 719468
  let era := (if 0 ≤ z then z else z - 146096) / 146097
  let doe := z - era * 146097
  let yoe := (doe - doe / 1460 + doe / 36524 - doe / 146096) / 365
  let y := yoe + era * 400
  let doy := doe - (365 * yoe + yoe / 4 - yoe / 100)
  let mp := (5 * doy + 2) / 153
  let d := doy - (153 * mp + 2) / 5 + 1
  let m := if mp < 10 then mp + 3 else mp - 9
  (if m ≤ 2 then y + 1 else y, m, d)

/-- Modelled from the spec: "timestamp comes from the `tmi-sent-ts` tag as
milliseconds-since-epoch", interpreted in UTC (the embedding of
`Utc.timestamp_millis_opt`, which lives in the external `chrono` crate). -/
def utcFromMillis (ms : Int) : UtcDateTime :=
  let secs := ms.ediv 1000
  let milli := ms.emod 1000
  let days := secs.ediv 86400
  let sod := secs.emod 86400
  let ymd := civilFromDays days
  ⟨ymd.1, ymd.2.1, ymd.2.2, sod / 3600, sod % 3600 / 60, sod % 60, milli⟩

/-- Decimal digits of a natural number (fuel-structured so that it reduces in
the kernel). -/
def natCharsAux : Nat → Nat → List Char
  | 0, _ => []
  | fuel + 1, n =>
    if n < 10 then [Char.ofNat (48 + n)]
    else natCharsAux fuel (n / 10) ++ [Char.ofNat (48 + n % 10)]

def intChars (i : Int) : List Char :=
  if i < 0 then '-' :: natCharsAux (i.natAbs + 1) i.natAbs
  else natCharsAux (i.natAbs + 1) i.natAbs

/-- Left-pad with `'0'` to width `w`. -/
def padZero (w : Nat) (cs : List Char) : List Char :=
  List.replicate (w - cs.length) '0' ++ cs

/-- The `TIMESTAMP_FORMAT` of `schema.rs`: `%Y-%m-%d %H:%M:%S` (UTC, second
precision; the millisecond field is not rendered). -/
def formatTimestamp (t : UtcDateTime) : List Char :=
  padZero 4 (intChars t.year) ++ '-' :: padZero 2 (intChars t.month) ++
    '-' :: padZero 2 (intChars t.day) ++ ' ' :: padZero 2 (intChars t.hour) ++
    ':' :: padZero 2 (intChars t.minute) ++ ':' :: padZero 2 (intChars t.second)

/-- The distinct `anyhow` error contexts raised by `Message::from_irc_message`. -/
inductive ParseError where
  | noTags
  | missingChannel
  | missingTimestampTag
  | invalidTimestamp
  | privmsgNoParams
  | missingDisplayName
  | noPrefix
  | missingNickname
  | missingId
  | systemMsgMissing
  | missingLogin
  | unsupported (c : Command)
  | malformedFrame
deriving DecidableEq, Repr

/-- The `Message` struct of `schema.rs` (borrowed/owned `Cow` strings are both
plain `List Char` here). -/
structure Message where
  text : List Char
  username : List Char
  display_name : List Char
  channel : List Char
  timestamp : UtcDateTime
  id : List Char
  raw : List Char
  type : MessageType
  tags : List (List Char × List Char)
deriving DecidableEq, Repr

def defaultMessage : Message :=
  ⟨[], [], [], [], ⟨1970, 1, 1, 0, 0, 0, 0⟩, [], [], .privMsg, []⟩

/-- The `\u{0001}ACTION ` marker stripped from action messages (8 characters). -/
def actionMarker : List Char := Char.ofNat 1 :: "ACTION ".toList

/-- The `extract_message_text` helper of `schema.rs`: trim the start, strip one leading
`:`, and unwrap `\u{0001}ACTION ...\u{0001}` when both delimiters are present. -/
def extract_message_text (message_text : List Char) : List Char :=
  let t1 := message_text.dropWhile Char.isWhitespace
  let t2 := match t1 with
    | ':' :: r => r
    | _ => t1
  if t2.take 8 = actionMarker ∧ t2.getLast? = some (Char.ofNat 1) then
    (t2.drop 8).dropLast
  else t2

/-- Rust `str::parse::<i64>`: optional sign, one or more decimal digits, and
the value must fit in an `i64`. -/
def parseI64 (cs : List Char) : Option Int :=
  let signed : Int × List Char :=
    match cs with
    | '+' :: r => (1, r)
    | '-' :: r => (-1, r)
    | r => (1, r)
  let ds := signed.2
  if ds.isEmpty then none
  else if ds.all Char.isDigit then
    let n : Nat := ds.foldl (fun a c => a * 10 + (c.toNat - 48)) 0
    let v : Int := signed.1 * n
    if -(2 ^ 63) ≤ v ∧ v ≤ 2 ^ 63 - 1 then some v else none
  else none

def tmiSentTsKey : List Char := "tmi-sent-ts".toList
def displayNameKey : List Char := "display-name".toList
def idKey : List Char := "id".toList
def loginKey : List Char := "login".toList
def systemMsgKey : List Char := "system-msg".toList
def banDurationKey : List Char := "ban-duration".toList
def userIdKey : List Char := "user-id".toList
def targetUserIdKey : List Char := "target-user-id".toList

instance {ε α : Type} [DecidableEq ε] [DecidableEq α] :
    DecidableEq (Except ε α) := fun a b =>
  match a, b with
  | .ok x, .ok y =>
    if h : x = y then .isTrue (by rw [h])
    else .isFalse fun hh => h (Except.ok.inj hh)
  | .error x, .error y =>
    if h : x = y then .isTrue (by rw [h])
    else .isFalse fun hh => h (Except.error.inj hh)
  | .ok _, .error _ => .isFalse fun hh => Except.noConfusion hh
  | .error _, .ok _ => .isFalse fun hh => Except.noConfusion hh

/-- Rust's `Option::context(...)?` on an `anyhow` result: unwrap the option or
fail with the named error. -/
def orError {α : Type} (o : Option α) (e : ParseError) : Except ParseError α :=
  match o with
  | some a => Except.ok a
  | none => Except.error e

/-- The `Message::from_irc_message` constructor of `schema.rs`: check tags, channel and the
`tmi-sent-ts` timestamp, then dispatch on the command, synthesizing the text
for CLEARCHAT and USERNOTICE and escape-decoding every USERNOTICE tag value. -/
def Message.from_irc_message (m : IrcMsg) : Except ParseError Message := do
  let tags ← orError m.tags ParseError.noTags
  let channel ← orError m.channel ParseError.missingChannel
  let rawTimestamp ← orError (lookupTag tmiSentTsKey tags)
    ParseError.missingTimestampTag
  let ts ← orError (parseI64 rawTimestamp) ParseError.invalidTimestamp
  let timestamp := utcFromMillis ts
  let responseTags := tags
  match m.command with
  | .privmsg => do
    let rawText ← orError m.params ParseError.privmsgNoParams
    let text := extract_message_text rawText
    let displayName ← orError (lookupTag displayNameKey tags)
      ParseError.missingDisplayName
    let pn ← orError m.prefixNick ParseError.noPrefix
    let username ← orError pn ParseError.missingNickname
    let id ← orError (lookupTag idKey tags) ParseError.missingId
    Except.ok ⟨text, username, displayName, channel, timestamp, id, m.raw,
      .privMsg, responseTags⟩
  | .clearchat =>
    let username := m.params
    let text := match m.params with
      | some userLogin =>
        match lookupTag banDurationKey tags with
        | some banDuration =>
          userLogin ++ " has been timed out for ".toList ++ banDuration ++
            " seconds".toList
        | none => userLogin ++ " has been banned".toList
      | none => "Chat has been cleared".toList
    Except.ok ⟨text, username.getD [], username.getD [], channel, timestamp, [],
      m.raw, .clearChat, responseTags⟩
  | .usernotice => do
    let systemMessageRaw ← orError (lookupTag systemMsgKey tags)
      ParseError.systemMsgMissing
    let systemMessage := unescape systemMessageRaw
    let text := match m.params with
      | some userMessage => systemMessage ++ ' ' :: extract_message_text userMessage
      | none => systemMessage
    let displayName ← orError (lookupTag displayNameKey tags)
      ParseError.missingDisplayName
    let username ← orError (lookupTag loginKey tags) ParseError.missingLogin
    let id ← orError (lookupTag idKey tags) ParseError.missingId
    let responseTags := responseTags.map fun kv => (kv.1, unescape kv.2)
    Except.ok ⟨text, username, displayName, channel, timestamp, id, m.raw,
      .userNotice, responseTags⟩
  | c => Except.error (ParseError.unsupported c)

/-- The `Display` impl for `Message` in `schema.rs`: no `#` is written before
the channel; the channel field appears verbatim. -/
def Message.display (m : Message) : List Char :=
  let timestamp := formatTimestamp m.timestamp
  if m.username ≠ [] then
    '[' :: timestamp ++ ']' :: ' ' :: m.channel ++ ' ' :: m.username ++
      ':' :: ' ' :: m.text
  else
    '[' :: timestamp ++ ']' :: ' ' :: m.channel ++ ' ' :: m.text

/-! ## Log responders (`src/web/responders/logs.rs`) -/

/-- Modelled from the spec: `parse(raw_line) → Message | error. Trims trailing
whitespace. Parses the chat-protocol frame ...` — the
`Message::parse_from_raw_irc` entry point, whose body is not under `src/`;
frame parsing is `parseIrcLine` and the schema step is `from_irc_message`. -/
def parse_from_raw_irc (line : List Char) : Except ParseError Message :=
  match parseIrcLine (trimEnd line) with
  | some m => Message.from_irc_message m
  | none => Except.error ParseError.malformedFrame

def parseOpt (line : List Char) : Option Message :=
  (parse_from_raw_irc line).toOption

inductive ProcessedLogsType where
  | text
  | json
deriving DecidableEq, Repr

/-- The `ProcessedLogs` struct of `responders/logs.rs`. -/
structure ProcessedLogs where
  messages : List Message
  logs_type : ProcessedLogsType

/-- The `ProcessedLogs::parse_raw` constructor: a parallel `filter_map` over the lines; rayon's
ordered collect is embedded as `List.filterMap`, which keeps successfully
parsed messages in input order and drops failing lines. -/
def ProcessedLogs.parse_raw (lines : List (List Char)) (logs_type : ProcessedLogsType) :
    ProcessedLogs :=
  ⟨lines.filterMap parseOpt, logs_type⟩

/-- The `Raw` arm of `LogsResponse::into_response`: optionally reverse, then
stream `[line, "\n"]` for every line; the response body is the concatenation
of those chunks. -/
def rawResponseBody (reverse : Bool) (lines : List (List Char)) : List Char :=
  let lines := if reverse then lines.reverse else lines
  ((lines.map fun line => [line, ['\n']]).flatten).flatten

/-- The spec's description of the raw body ("stream of original lines joined by
`\n`"): consecutive lines separated by exactly one newline, no trailing
newline. Stated from the claim's words, to be compared with
`rawResponseBody`. -/
def joinWithNewlines : List (List Char) → List Char
  | [] => []
  | [l] => l
  | l :: rest => l ++ '\n' :: joinWithNewlines rest

/-! ## Reindexer (`src/reindexer.rs`) -/

/-- The on-disk `Index` record (`day: u32, offset: u64, len: u32`), widths
dropped since the reindexer only ever stores in-range values here. -/
structure Index where
  day : Nat
  offset : Nat
  len : Nat
deriving DecidableEq, Repr

/-- One `read_line` step of `BufRead`: the bytes up to and including the first
`'\n'` (or to end of input), and the remaining input. -/
def splitFirstLine : List Char → List Char × List Char
  | [] => ([], [])
  | c :: rest =>
    if c = '\n' then ([c], rest)
    else
      let (t, r) := splitFirstLine rest
      (c :: t, r)

/-- Modelled from the spec: "derive the user_id exactly as in the Indexer":
prefer tag `user-id`; for CLEARCHAT prefer `target-user-id`; for messages
lacking any user id, no index record is written. This stands in for
`extract_channel_and_user` and the `ServerMessage` fallback of the reindexer,
which are not under `src/` (logins are taken as already resolved). -/
def extractUserId (m : IrcMsg) : Option (List Char) :=
  let tags := m.tags.getD []
  match m.command with
  | .clearchat => lookupTag targetUserIdKey tags
  | _ => lookupTag userIdKey tags

/-- The per-day scan loop of `reindex_channel` (lines 88–171 of
`reindexer.rs`), fuel-structured. State: remaining input, the stream position
`pos` (the `offset` read before each `read_line`), and the `line` buffer.
`read_line` appends to the buffer; the source clears it only in the
successfully-parsed arm, so after a malformed line the buffer keeps its
contents. Each emitted record pairs the user id with
`Index {day, offset, len := read_bytes - 1}`. -/
def scanDayAux (day : Nat) : Nat → List Char → Nat → List Char →
    List (List Char × Index)
  | 0, _, _, _ => []
  | _ + 1, [], _, _ => []
  | fuel + 1, c :: rest, pos, lineBuf =>
    let (taken, rest2) := splitFirstLine (c :: rest)
    let readBytes := taken.length
    let line := lineBuf ++ taken
    match parseIrcLine (trimEnd line) with
    | some ircMessage =>
      (match extractUserId ircMessage with
        | some userId => [(userId, ⟨day, pos, readBytes - 1⟩)]
        | none => []) ++ scanDayAux day fuel rest2 (pos + readBytes) []
    | none => scanDayAux day fuel rest2 (pos + readBytes) line

/-- Scan one channel-day file: the index records the reindexer appends for that
day, in emission order, paired with their user ids. -/
def scanDay (day : Nat) (file : List Char) : List (List Char × Index) :=
  scanDayAux day file.length file 0 []

/-- The filesystem view the reindexer mutates: the contents of each month's
`users/` directory, as the journal of `(user id, record)` appends (one user's
`.indexes` file is the subsequence for that user id). -/
abbrev UsersDirs : Type := Nat × Nat → List (List Char × Index)

/-- Indexing one day appends that day's records to the month's `users/`
directory. -/
def dayStep (files : Nat → Nat → Nat → List Char) (y mth : Nat)
    (fs : UsersDirs) (d : Nat) : UsersDirs :=
  Function.update fs (y, mth) (fs (y, mth) ++ scanDay d (files y mth d))

/-- Processing one month: clear the whole `users/` directory once
(`remove_dir_all`, before the first day), then scan each day in order. -/
def monthStep (files : Nat → Nat → Nat → List Char) (y : Nat)
    (fs : UsersDirs) (p : Nat × List Nat) : UsersDirs :=
  p.2.foldl (dayStep files y p.1) (Function.update fs (y, p.1) [])

def yearStep (files : Nat → Nat → Nat → List Char)
    (fs : UsersDirs) (q : Nat × List (Nat × List Nat)) : UsersDirs :=
  q.2.foldl (monthStep files q.1) fs

/-- The `reindex_channel` operation: iterate the available (year, month, days) map, clearing
each month's `users/` directory and rebuilding it from the channel-day files. -/
def reindexChannel (files : Nat → Nat → Nat → List Char)
    (availableLogs : List (Nat × List (Nat × List Nat))) (fs0 : UsersDirs) :
    UsersDirs :=
  availableLogs.foldl (yearStep files) fs0

/-! ## Concrete fixtures -/

/-- A channel-day file with a malformed line between two parseable lines. -/
def fileC1 : List Char :=
  "@user-id=1 PRIVMSG hi\n%%%\n@user-id=2 PRIVMSG yo\n".toList

/-- The parseable line that follows the malformed line of `fileC1`. -/
def lineAfterMalformed : List Char := "@user-id=2 PRIVMSG yo".toList

/-- A channel-day file whose single line lacks the trailing newline. -/
def fileNoNewline : List Char := "@user-id=1 PRIVMSG x".toList

/-- A two-line, newline-terminated channel-day file. -/
def fileTwoLines : List Char :=
  "@user-id=1 PRIVMSG a\n@user-id=2 PRIVMSG b\n".toList

/-- Day files for the reindex fixture: day 1 and day 2 of one month. -/
def filesFixture : Nat → Nat → Nat → List Char := fun _ _ d =>
  if d = 1 then "@user-id=1 PRIVMSG a\n".toList else "@user-id=2 PRIVMSG b\n".toList

/-- A `users/` state that is nonempty before reindexing. -/
def staleDirs : UsersDirs := fun _ => [("stale".toList, ⟨9, 9, 9⟩)]

/-- A message whose channel field is a plain login, for the `Display` claims. -/
def msgPlainChannel : Message :=
  ⟨"Pog".toList, "juicer".toList, "Juicer".toList, "xqc".toList,
    ⟨2023, 5, 1, 12, 0, 0, 250⟩, "id1".toList, [], .privMsg, []⟩

/-- The same message with an empty username. -/
def msgNoUsername : Message :=
  ⟨"Pog".toList, [], [], "xqc".toList,
    ⟨2023, 5, 1, 12, 0, 0, 250⟩, [], [], .clearChat, []⟩

/-- A CLEARCHAT with a target login and a ban duration. -/
def clearchatFixture : IrcMsg :=
  ⟨some [(tmiSentTsKey, "0".toList), (banDurationKey, "600".toList)], none,
    .clearchat, some "c".toList, some "baduser".toList, []⟩

/-- The spec's USERNOTICE example: `system-msg=Sub\saward!` with params
`:thanks`. -/
def usernoticeFixture : IrcMsg :=
  ⟨some [(tmiSentTsKey, "0".toList), (systemMsgKey, "Sub\\saward!".toList),
      (displayNameKey, "D".toList), (loginKey, "u".toList),
      (idKey, "i".toList)],
    none, .usernotice, some "c".toList, some ":thanks".toList, []⟩

/-- A CLEARMSG-command message with no tags block. -/
def clearmsgNoTags : IrcMsg := ⟨none, none, .clearmsg, none, none, []⟩

/-- A CLEARMSG-command message that passes the tags/channel/timestamp checks. -/
def clearmsgWithTags : IrcMsg :=
  ⟨some [(tmiSentTsKey, "0".toList)], none, .clearmsg, some "c".toList, none, []⟩

/-- An unknown-command message with no tags block. -/
def unsupportedNoTags : IrcMsg := ⟨none, none, .other "FOO".toList, none, none, []⟩

/-- A CLEARCHAT message whose tags lack `tmi-sent-ts`. -/
def clearchatNoTs : IrcMsg :=
  ⟨some [], none, .clearchat, some "c".toList, some "u".toList, []⟩

/-! ## Theorems -/

section Theorems

/-- C1: the reindexer's read loop appends each `read_line` into `line` but
only clears the buffer in the successfully-parsed arm; after the malformed
middle line of `fileC1` every later parse sees the leftover buffer and fails,
so the parseable third line — which on its own parses and carries user id 2 —
produces no index record: the whole scan emits only the first line's record. -/
theorem c1_malformed_line_poisons_scan :
    scanDay 7 fileC1 = [("1".toList, ⟨7, 0, 21⟩)] ∧
    (parseIrcLine (trimEnd lineAfterMalformed)).isSome = true ∧
    Option.bind (parseIrcLine (trimEnd lineAfterMalformed)) extractUserId
      = some "2".toList := by
  decide

/-- C4 (counterexample): a raw response holding one line `a` has body `a\n`,
not the separator-joined `a` the claim requires (no trailing newline). -/
theorem c4_counterexample_trailing_newline :
    rawResponseBody false [['a']] = ['a', '\n'] ∧
    joinWithNewlines [['a']] = ['a'] ∧
    rawResponseBody false [['a']] ≠ joinWithNewlines [['a']] := by
  decide

lemma rawResponseBody_cons (l : List Char) (rest : List (List Char)) :
    rawResponseBody false (l :: rest) = l ++ '\n' :: rawResponseBody false rest := by
  simp [rawResponseBody]

/-- C4 (amended): the raw body is each line verbatim followed by exactly one
newline — equivalently, the lines joined by `\n` with one additional trailing
newline after the last line (`n` separators for `n` lines, not `n - 1`). -/
theorem c4_raw_body_is_join_plus_newline (lines : List (List Char))
    (h : lines ≠ []) :
    rawResponseBody false lines = joinWithNewlines lines ++ ['\n'] := by
  induction lines with
  | nil => exact absurd rfl h
  | cons l rest ih =>
    cases rest with
    | nil => simp [rawResponseBody, joinWithNewlines]
    | cons l2 r2 =>
      rw [rawResponseBody_cons, ih (by simp)]
      simp [joinWithNewlines]

/-- C4 (witness): the amended statement at the two-line response `a`, `b`. -/
theorem c4_witness :
    rawResponseBody false ["a".toList, "b".toList] = "a\nb\n".toList :=
  (c4_raw_body_is_join_plus_newline ["a".toList, "b".toList] (by decide)).trans
    (by decide)

/-- C5 (counterexample): the `Display` impl writes the channel field verbatim,
with no `#` prepended, so a message whose channel is the login `xqc` does not
render as `#xqc` as the claim requires. -/
theorem c5_counterexample_no_hash :
    Message.display msgPlainChannel
      = "[2023-05-01 12:00:00] xqc juicer: Pog".toList ∧
    Message.display msgPlainChannel
      ≠ "[2023-05-01 12:00:00] #xqc juicer: Pog".toList := by
  decide

/-- C5 (amended): for every message, `Display` produces
`[YYYY-MM-DD HH:MM:SS] channel username: text` when the username is nonempty
and `[YYYY-MM-DD HH:MM:SS] channel text` otherwise, the channel field appearing
verbatim (no literal `#` is prepended); the timestamp is rendered at second
precision (the millisecond field does not affect the output). -/
theorem c5_display_shape (m : Message) :
    (m.username ≠ [] →
      m.display = '[' :: formatTimestamp m.timestamp ++ ']' :: ' ' ::
        m.channel ++ ' ' :: m.username ++ ':' :: ' ' :: m.text) ∧
    (m.username = [] →
      m.display = '[' :: formatTimestamp m.timestamp ++ ']' :: ' ' ::
        m.channel ++ ' ' :: m.text) ∧
    (∀ k : Int,
      Message.display ⟨m.text, m.username, m.display_name, m.channel,
        ⟨m.timestamp.year, m.timestamp.month, m.timestamp.day, m.timestamp.hour,
          m.timestamp.minute, m.timestamp.second, k⟩, m.id, m.raw, m.type,
        m.tags⟩ = m.display) := by
  refine ⟨fun h => ?_, fun h => ?_, fun k => ?_⟩
  · simp [Message.display, h]
  · simp [Message.display, h]
  · simp [Message.display, formatTimestamp]

/-- C5 (witness): both branches of the amended statement, and millisecond
invariance, at concrete messages. -/
theorem c5_witness :
    Message.display msgPlainChannel
      = '[' :: formatTimestamp msgPlainChannel.timestamp ++ ']' :: ' ' ::
        msgPlainChannel.channel ++ ' ' :: msgPlainChannel.username ++
        ':' :: ' ' :: msgPlainChannel.text ∧
    Message.display msgNoUsername
      = '[' :: formatTimestamp msgNoUsername.timestamp ++ ']' :: ' ' ::
        msgNoUsername.channel ++ ' ' :: msgNoUsername.text :=
  ⟨(c5_display_shape msgPlainChannel).1 (by decide),
    (c5_display_shape msgNoUsername).2.1 (by decide)⟩

/-- C6: `parse_raw` keeps exactly the messages of the lines that parse
successfully, in the order of their source lines, every unparseable line being
omitted rather than failing the call, and it preserves the requested logs
type. -/
theorem c6_parse_raw_order_preserving (lines : List (List Char))
    (t : ProcessedLogsType) :
    (ProcessedLogs.parse_raw lines t).messages
      = (lines.filter fun l => (parseOpt l).isSome).map
          (fun l => (parseOpt l).getD defaultMessage) ∧
    (ProcessedLogs.parse_raw lines t).logs_type = t := by
  refine ⟨?_, rfl⟩
  induction lines with
  | nil => rfl
  | cons l rest ih =>
    cases h : parseOpt l with
    | none =>
      simpa [ProcessedLogs.parse_raw, List.filterMap_cons, List.filter_cons, h]
        using ih
    | some msg =>
      simpa [ProcessedLogs.parse_raw, List.filterMap_cons, List.filter_cons, h]
        using ih

lemma except_bind_ok {α β : Type} (e : Except ParseError α)
    (f : α → Except ParseError β) (b : β) :
    (e >>= f) = Except.ok b ↔ ∃ a, e = Except.ok a ∧ f a = Except.ok b := by
  cases e <;> simp [Bind.bind, Except.bind]

lemma ok_bind {α β : Type} (a : α) (f : α → Except ParseError β) :
    (Except.ok a >>= f) = f a := rfl

lemma error_bind {α β : Type} (e : ParseError) (f : α → Except ParseError β) :
    ((Except.error e : Except ParseError α) >>= f) = Except.error e := rfl

/-- C7: a CLEARCHAT that passes the tags/channel/timestamp checks yields the
synthesized text — "Chat has been cleared" without a target, a timeout line
when `ban-duration` is set, a ban line otherwise — with username and
display_name both the target login (or empty) and an empty id. -/
theorem c7_clearchat_synthesized_text (m : IrcMsg)
    (tags : List (List Char × List Char)) (ch ts : List Char) (v : Int)
    (h1 : m.tags = some tags) (h2 : m.channel = some ch)
    (h3 : lookupTag tmiSentTsKey tags = some ts) (h4 : parseI64 ts = some v)
    (h5 : m.command = Command.clearchat) :
    Message.from_irc_message m = Except.ok
      ⟨(match m.params with
        | some userLogin =>
          (match lookupTag banDurationKey tags with
            | some banDuration =>
              userLogin ++ " has been timed out for ".toList ++ banDuration ++
                " seconds".toList
            | none => userLogin ++ " has been banned".toList)
        | none => "Chat has been cleared".toList),
        m.params.getD [], m.params.getD [], ch, utcFromMillis v, [],
        m.raw, MessageType.clearChat, tags⟩ := by
  simp only [Message.from_irc_message, h1, h2, h3, h4, h5, orError, ok_bind]

/-- C7 (witness): a concrete CLEARCHAT with target `baduser` and
`ban-duration=600` produces the timeout text with both actor fields set to the
target and an empty id. -/
theorem c7_witness :
    Message.from_irc_message clearchatFixture = Except.ok
      ⟨"baduser has been timed out for 600 seconds".toList, "baduser".toList,
        "baduser".toList, "c".toList, utcFromMillis 0, [], [],
        MessageType.clearChat,
        [(tmiSentTsKey, "0".toList), (banDurationKey, "600".toList)]⟩ :=
  (c7_clearchat_synthesized_text clearchatFixture
    [(tmiSentTsKey, "0".toList), (banDurationKey, "600".toList)]
    "c".toList "0".toList 0 rfl rfl (by decide) (by decide) rfl).trans (by decide)

/-- C8: a USERNOTICE that passes the common checks has text equal to the
escape-decoded `system-msg`, with a space and the extracted user message
appended when params are present; username, display_name and id come from the
`login`, `display-name` and `id` tags, and every tag value in the returned map
is escape-decoded. -/
theorem c8_usernotice_text_and_tags (m : IrcMsg)
    (tags : List (List Char × List Char)) (ch ts sm dn lg idv : List Char)
    (v : Int)
    (h1 : m.tags = some tags) (h2 : m.channel = some ch)
    (h3 : lookupTag tmiSentTsKey tags = some ts) (h4 : parseI64 ts = some v)
    (h5 : m.command = Command.usernotice)
    (h6 : lookupTag systemMsgKey tags = some sm)
    (h7 : lookupTag displayNameKey tags = some dn)
    (h8 : lookupTag loginKey tags = some lg)
    (h9 : lookupTag idKey tags = some idv) :
    Message.from_irc_message m = Except.ok
      ⟨(match m.params with
        | some userMessage => unescape sm ++ ' ' :: extract_message_text userMessage
        | none => unescape sm),
        lg, dn, ch, utcFromMillis v, idv, m.raw, MessageType.userNotice,
        tags.map fun kv => (kv.1, unescape kv.2)⟩ := by
  simp only [Message.from_irc_message, h1, h2, h3, h4, h5, h6, h7, h8, h9,
    orError, ok_bind]

/-- C8 (witness): the spec's example — `system-msg=Sub\saward!` with params
`:thanks` — produces text "Sub award! thanks", actor fields from the tags, and
an escape-decoded tag map. -/
theorem c8_witness :
    Message.from_irc_message usernoticeFixture = Except.ok
      ⟨"Sub award! thanks".toList, "u".toList, "D".toList, "c".toList,
        utcFromMillis 0, "i".toList, [], MessageType.userNotice,
        [(tmiSentTsKey, "0".toList), (systemMsgKey, "Sub award!".toList),
          (displayNameKey, "D".toList), (loginKey, "u".toList),
          (idKey, "i".toList)]⟩ :=
  (c8_usernotice_text_and_tags usernoticeFixture
    [(tmiSentTsKey, "0".toList), (systemMsgKey, "Sub\\saward!".toList),
      (displayNameKey, "D".toList), (loginKey, "u".toList),
      (idKey, "i".toList)]
    "c".toList "0".toList "Sub\\saward!".toList "D".toList "u".toList
    "i".toList 0 rfl rfl (by decide) (by decide) rfl (by decide) (by decide)
    (by decide) (by decide)).trans (by decide)

/-- C9 (counterexample): an unsupported CLEARMSG command without tags fails
with the missing-tags error, not the "unsupported message type" error the
claim requires for every non-supported command. -/
theorem c9_counterexample_missing_tags_first :
    Message.from_irc_message clearmsgNoTags = Except.error ParseError.noTags ∧
    ParseError.noTags ≠ ParseError.unsupported Command.clearmsg := by
  decide

/-- C9 (amended): for every message that passes the tags/channel/timestamp
checks, any command other than PRIVMSG, CLEARCHAT or USERNOTICE — including
CLEARMSG — yields the "unsupported message type" error (messages failing those
checks yield the corresponding missing-field error instead); and parsing never
returns a message whose type is ClearMsg. -/
theorem c9_unsupported_commands_rejected :
    (∀ (m : IrcMsg) (tags : List (List Char × List Char)) (ch ts : List Char)
        (v : Int),
      m.tags = some tags → m.channel = some ch →
      lookupTag tmiSentTsKey tags = some ts → parseI64 ts = some v →
      m.command ≠ Command.privmsg → m.command ≠ Command.clearchat →
      m.command ≠ Command.usernotice →
      Message.from_irc_message m
        = Except.error (ParseError.unsupported m.command)) ∧
    (∀ (m : IrcMsg) (msg : Message),
      Message.from_irc_message m = Except.ok msg →
      msg.type ≠ MessageType.clearMsg) := by
  constructor
  · intro m tags ch ts v h1 h2 h3 h4 h5 h6 h7
    simp only [Message.from_irc_message, h1, h2, h3, h4, orError, ok_bind]
  · intro m msg h
    unfold Message.from_irc_message at h
    simp only [except_bind_ok] at h
    obtain ⟨tags, -, h⟩ := h
    obtain ⟨ch, -, h⟩ := h
    obtain ⟨ts, -, h⟩ := h
    obtain ⟨v, -, h⟩ := h
    cases hc : m.command <;> rw [hc] at h
    case privmsg =>
      simp only [except_bind_ok] at h
      obtain ⟨p, -, h⟩ := h
      obtain ⟨dn, -, h⟩ := h
      obtain ⟨pn, -, h⟩ := h
      obtain ⟨un, -, h⟩ := h
      obtain ⟨i, -, h⟩ := h
      injection h with h'
      intro hh
      rw [← h'] at hh
      simp at hh
    case clearchat =>
      injection h with h'
      intro hh
      rw [← h'] at hh
      simp at hh
    case usernotice =>
      simp only [except_bind_ok] at h
      obtain ⟨sm, -, h⟩ := h
      obtain ⟨dn, -, h⟩ := h
      obtain ⟨lg, -, h⟩ := h
      obtain ⟨i, -, h⟩ := h
      injection h with h'
      intro hh
      rw [← h'] at hh
      simp at hh
    case clearmsg => exact Except.noConfusion h
    case other s => exact Except.noConfusion h

/-- C9 (witness): a CLEARMSG that passes the common checks is rejected as an
unsupported message type. -/
theorem c9_witness :
    Message.from_irc_message clearmsgWithTags
      = Except.error (ParseError.unsupported Command.clearmsg) :=
  c9_unsupported_commands_rejected.1 clearmsgWithTags
    [(tmiSentTsKey, "0".toList)] "c".toList "0".toList 0 rfl rfl (by decide)
    (by decide) (by decide) (by decide) (by decide)

/-- C10: `from_irc_message` checks tags, channel and the `tmi-sent-ts` tag
before dispatching on the command: a missing tags block, a missing channel, a
missing timestamp tag, or a timestamp that does not parse as an integer each
yield their own error for every command kind. -/
theorem c10_field_checks_precede_dispatch :
    (∀ m : IrcMsg, m.tags = none →
      Message.from_irc_message m = Except.error ParseError.noTags) ∧
    (∀ (m : IrcMsg) (tags : List (List Char × List Char)),
      m.tags = some tags → m.channel = none →
      Message.from_irc_message m = Except.error ParseError.missingChannel) ∧
    (∀ (m : IrcMsg) (tags : List (List Char × List Char)) (ch : List Char),
      m.tags = some tags → m.channel = some ch →
      lookupTag tmiSentTsKey tags = none →
      Message.from_irc_message m
        = Except.error ParseError.missingTimestampTag) ∧
    (∀ (m : IrcMsg) (tags : List (List Char × List Char)) (ch ts : List Char),
      m.tags = some tags → m.channel = some ch →
      lookupTag tmiSentTsKey tags = some ts → parseI64 ts = none →
      Message.from_irc_message m
        = Except.error ParseError.invalidTimestamp) := by
  refine ⟨fun m h1 => ?_, fun m tags h1 h2 => ?_, fun m tags ch h1 h2 h3 => ?_,
    fun m tags ch ts h1 h2 h3 h4 => ?_⟩
  · simp only [Message.from_irc_message, h1, orError, ok_bind, error_bind]
  · simp only [Message.from_irc_message, h1, h2, orError, ok_bind, error_bind]
  · simp only [Message.from_irc_message, h1, h2, h3, orError, ok_bind,
      error_bind]
  · simp only [Message.from_irc_message, h1, h2, h3, h4, orError, ok_bind,
      error_bind]

/-- C10 (witness): an unsupported command without tags yields the missing-tags
error (not "unsupported message type"), and a CLEARCHAT without `tmi-sent-ts`
fails with the missing-timestamp error. -/
theorem c10_witness :
    Message.from_irc_message unsupportedNoTags = Except.error ParseError.noTags ∧
    Message.from_irc_message clearchatNoTs
      = Except.error ParseError.missingTimestampTag :=
  ⟨c10_field_checks_precede_dispatch.1 unsupportedNoTags rfl,
    c10_field_checks_precede_dispatch.2.2.1 clearchatNoTs [] "c".toList rfl rfl
      rfl⟩

/-! ### Reindexer directory-state lemmas (claim C2) -/

lemma dayFold_at_key (files : Nat → Nat → Nat → List Char) (y mth : Nat) :
    ∀ (days : List Nat) (fs : UsersDirs),
      days.foldl (dayStep files y mth) fs (y, mth)
        = fs (y, mth) ++ (days.map fun d => scanDay d (files y mth d)).flatten := by
  intro days
  induction days with
  | nil => intro fs; simp
  | cons d ds ih =>
    intro fs
    rw [List.foldl_cons, ih]
    simp [dayStep, Function.update_same, List.append_assoc]

lemma dayFold_other (files : Nat → Nat → Nat → List Char) (y mth : Nat) :
    ∀ (days : List Nat) (fs : UsersDirs) (k : Nat × Nat), k ≠ (y, mth) →
      days.foldl (dayStep files y mth) fs k = fs k := by
  intro days
  induction days with
  | nil => intro fs k _; rfl
  | cons d ds ih =>
    intro fs k hk
    rw [List.foldl_cons, ih _ _ hk]
    simp [dayStep, Function.update_noteq hk]

lemma monthStep_at_key (files : Nat → Nat → Nat → List Char) (y : Nat)
    (fs : UsersDirs) (mth : Nat) (days : List Nat) :
    monthStep files y fs (mth, days) (y, mth)
      = (days.map fun d => scanDay d (files y mth d)).flatten := by
  simp [monthStep, dayFold_at_key, Function.update_same]

lemma monthStep_other (files : Nat → Nat → Nat → List Char) (y : Nat)
    (fs : UsersDirs) (p : Nat × List Nat) (k : Nat × Nat) (hk : k ≠ (y, p.1)) :
    monthStep files y fs p k = fs k := by
  simp only [monthStep]
  rw [dayFold_other files y p.1 p.2 _ k hk, Function.update_noteq hk]

lemma monthFold_untouched (files : Nat → Nat → Nat → List Char) (y : Nat) :
    ∀ (ms : List (Nat × List Nat)) (fs : UsersDirs) (mth : Nat),
      mth ∉ ms.map Prod.fst →
      ms.foldl (monthStep files y) fs (y, mth) = fs (y, mth) := by
  intro ms
  induction ms with
  | nil => intro fs mth _; rfl
  | cons p ps ih =>
    intro fs mth hm
    simp only [List.map_cons, List.mem_cons, not_or] at hm
    rw [List.foldl_cons, ih _ _ hm.2,
      monthStep_other files y fs p (y, mth)
        (fun hh => hm.1 (congrArg Prod.snd hh))]

lemma monthFold_at (files : Nat → Nat → Nat → List Char) (y : Nat) :
    ∀ (ms : List (Nat × List Nat)) (fs : UsersDirs) (mth : Nat)
      (days : List Nat),
      (ms.map Prod.fst).Nodup → (mth, days) ∈ ms →
      ms.foldl (monthStep files y) fs (y, mth)
        = (days.map fun d => scanDay d (files y mth d)).flatten := by
  intro ms
  induction ms with
  | nil => intro fs mth days _ hmem; cases hmem
  | cons p ps ih =>
    rcases p with ⟨p1, p2⟩
    intro fs mth days hnd hmem
    simp only [List.map_cons] at hnd
    have hnd' := List.nodup_cons.mp hnd
    rw [List.foldl_cons]
    rcases List.mem_cons.mp hmem with heq | htail
    · injection heq with ha hb
      subst ha
      subst hb
      rw [monthFold_untouched files y ps _ mth hnd'.1]
      exact monthStep_at_key files y fs mth days
    · exact ih _ mth days hnd'.2 htail

lemma monthFold_other_year (files : Nat → Nat → Nat → List Char) (y : Nat) :
    ∀ (ms : List (Nat × List Nat)) (fs : UsersDirs) (k : Nat × Nat), k.1 ≠ y →
      ms.foldl (monthStep files y) fs k = fs k := by
  intro ms
  induction ms with
  | nil => intro fs k _; rfl
  | cons p ps ih =>
    intro fs k hk
    rw [List.foldl_cons, ih _ _ hk,
      monthStep_other files y fs p k (fun hh => hk (congrArg Prod.fst hh))]

lemma yearFold_untouched (files : Nat → Nat → Nat → List Char) :
    ∀ (ys : List (Nat × List (Nat × List Nat))) (fs : UsersDirs) (y mth : Nat),
      y ∉ ys.map Prod.fst →
      ys.foldl (yearStep files) fs (y, mth) = fs (y, mth) := by
  intro ys
  induction ys with
  | nil => intro fs y mth _; rfl
  | cons q qs ih =>
    intro fs y mth hm
    simp only [List.map_cons, List.mem_cons, not_or] at hm
    rw [List.foldl_cons, ih _ _ _ hm.2]
    exact monthFold_other_year files q.1 q.2 fs (y, mth) hm.1

lemma yearFold_at (files : Nat → Nat → Nat → List Char) :
    ∀ (ys : List (Nat × List (Nat × List Nat))) (fs : UsersDirs) (y : Nat)
      (ms : List (Nat × List Nat)) (mth : Nat) (days : List Nat),
      (ys.map Prod.fst).Nodup → (y, ms) ∈ ys →
      (ms.map Prod.fst).Nodup → (mth, days) ∈ ms →
      ys.foldl (yearStep files) fs (y, mth)
        = (days.map fun d => scanDay d (files y mth d)).flatten := by
  intro ys
  induction ys with
  | nil => intro fs y ms mth days _ hmem _ _; cases hmem
  | cons q qs ih =>
    rcases q with ⟨q1, q2⟩
    intro fs y ms mth days hnd hmem hms hdm
    simp only [List.map_cons] at hnd
    have hnd' := List.nodup_cons.mp hnd
    rw [List.foldl_cons]
    rcases List.mem_cons.mp hmem with heq | htail
    · injection heq with ha hb
      subst ha
      subst hb
      rw [yearFold_untouched files qs _ y mth hnd'.1]
      exact monthFold_at files y ms fs mth days hms hdm
    · exact ih _ y ms mth days hnd'.2 htail hms hdm

/-- C2: for every (year, month) it processes, the reindexer clears the month's
`users/` directory exactly once, before the first day of that month, and never
between days: the final directory for a month is exactly the concatenation of
every day's scan results in day order — independent of the directory's prior
contents, and with the records of earlier days surviving later days. -/
theorem c2_users_dir_cleared_once_per_month
    (files : Nat → Nat → Nat → List Char)
    (availableLogs : List (Nat × List (Nat × List Nat))) (fs0 : UsersDirs)
    (y : Nat) (ms : List (Nat × List Nat)) (mth : Nat) (days : List Nat)
    (h1 : (availableLogs.map Prod.fst).Nodup)
    (h2 : (y, ms) ∈ availableLogs)
    (h3 : (ms.map Prod.fst).Nodup)
    (h4 : (mth, days) ∈ ms) :
    reindexChannel files availableLogs fs0 (y, mth)
      = (days.map fun d => scanDay d (files y mth d)).flatten :=
  yearFold_at files availableLogs fs0 y ms mth days h1 h2 h3 h4

/-- C2 (witness): reindexing a month with two day files replaces a stale
nonempty `users/` directory with both days' records, day 1 before day 2. -/
theorem c2_witness :
    reindexChannel filesFixture [(2023, [(5, [1, 2])])] staleDirs (2023, 5)
      = [("1".toList, ⟨1, 0, 20⟩), ("2".toList, ⟨2, 0, 20⟩)] := by
  rw [c2_users_dir_cleared_once_per_month filesFixture [(2023, [(5, [1, 2])])]
    staleDirs 2023 [(5, [1, 2])] 5 [1, 2] (by decide) (by decide) (by decide)
    (by decide)]
  decide

/-! ### Reindexer scan-soundness lemmas (claim C3) -/

lemma mem_of_getLast?' : ∀ (l : List Char) (a : Char), l.getLast? = some a → a ∈ l := by
  intro l
  induction l with
  | nil => intro a h; cases h
  | cons x xs ih =>
    intro a h
    cases xs with
    | nil =>
      rw [List.getLast?_singleton] at h
      rw [Option.some.injEq] at h
      simp [h]
    | cons y ys =>
      rw [List.getLast?_cons_cons] at h
      exact List.mem_cons_of_mem x (ih _ h)

lemma splitFirstLine_of_mem :
    ∀ (l : List Char), '\n' ∈ l →
      ∃ t r, splitFirstLine l = (t ++ ['\n'], r) ∧ '\n' ∉ t ∧
        l = t ++ '\n' :: r := by
  intro l
  induction l with
  | nil => intro h; cases h
  | cons c cs ih =>
    intro h
    by_cases hc : c = '\n'
    · subst hc
      exact ⟨[], cs, by simp [splitFirstLine], by simp, by simp⟩
    · have h' : '\n' ∈ cs := by
        rcases List.mem_cons.mp h with h0 | h0
        · exact absurd h0.symm hc
        · exact h0
      obtain ⟨t, r, h1, h2, h3⟩ := ih h'
      refine ⟨c :: t, r, ?_, ?_, by simp [h3]⟩
      · simp [splitFirstLine, hc, h1]
      · exact fun hh => (List.mem_cons.mp hh).elim (fun h0 => hc h0.symm) h2

lemma sound_step_lift (t r : List Char) (day pos pos' : Nat)
    (hpos' : pos' = pos + t.length + 1) (p : List Char × Index)
    (h1 : p.2.day = day) (h2 : pos' ≤ p.2.offset)
    (h3 : ∀ c ∈ (r.drop (p.2.offset - pos')).take p.2.len, c ≠ '\n')
    (h4 : r.get? (p.2.offset - pos' + p.2.len) = some '\n')
    (h5 : p.2.offset = pos' ∨ r.get? (p.2.offset - pos' - 1) = some '\n') :
    p.2.day = day ∧ pos ≤ p.2.offset ∧
      (∀ c ∈ ((t ++ '\n' :: r).drop (p.2.offset - pos)).take p.2.len, c ≠ '\n') ∧
      (t ++ '\n' :: r).get? (p.2.offset - pos + p.2.len) = some '\n' ∧
      (p.2.offset = pos ∨
        (t ++ '\n' :: r).get? (p.2.offset - pos - 1) = some '\n') := by
  subst hpos'
  have hX : t ++ '\n' :: r = (t ++ ['\n']) ++ r := by simp
  have hlen : (t ++ ['\n']).length = t.length + 1 := by simp
  refine ⟨h1, by omega, ?_, ?_, ?_⟩
  · have harith : p.2.offset - pos
        = (t ++ ['\n']).length + (p.2.offset - (pos + t.length + 1)) := by
      rw [hlen]; omega
    have hdrop : (t ++ '\n' :: r).drop (p.2.offset - pos)
        = r.drop (p.2.offset - (pos + t.length + 1)) := by
      rw [hX, harith, List.drop_append]
    rw [hdrop]
    exact h3
  · have harith : p.2.offset - pos + p.2.len
        = (t ++ ['\n']).length + (p.2.offset - (pos + t.length + 1) + p.2.len) := by
      rw [hlen]; omega
    rw [hX, harith, List.get?_append_right (Nat.le_add_right _ _),
      Nat.add_sub_cancel_left]
    exact h4
  · right
    by_cases hk0 : p.2.offset - (pos + t.length + 1) = 0
    · have harith : p.2.offset - pos - 1 = t.length := by omega
      rw [harith, List.get?_append_right (le_refl t.length), Nat.sub_self]
      rfl
    · rcases h5 with h5l | h5r
      · exact absurd (by omega) hk0
      · have harith : p.2.offset - pos - 1
            = (t ++ ['\n']).length + (p.2.offset - (pos + t.length + 1) - 1) := by
          rw [hlen]; omega
        rw [hX, harith, List.get?_append_right (Nat.le_add_right _ _),
          Nat.add_sub_cancel_left]
        exact h5r

lemma scanDayAux_sound (day : Nat) :
    ∀ (fuel : Nat) (rest : List Char) (pos : Nat) (buf : List Char),
      (rest = [] ∨ rest.getLast? = some '\n') →
      ∀ p ∈ scanDayAux day fuel rest pos buf,
        p.2.day = day ∧ pos ≤ p.2.offset ∧
        (∀ c ∈ (rest.drop (p.2.offset - pos)).take p.2.len, c ≠ '\n') ∧
        rest.get? (p.2.offset - pos + p.2.len) = some '\n' ∧
        (p.2.offset = pos ∨ rest.get? (p.2.offset - pos - 1) = some '\n') := by
  intro fuel
  induction fuel with
  | zero =>
    intro rest pos buf _ p hp
    simp [scanDayAux] at hp
  | succ fuel ih =>
    intro rest pos buf hlast p hp
    cases rest with
    | nil => simp [scanDayAux] at hp
    | cons c cs =>
      have hlast' : (c :: cs).getLast? = some '\n' :=
        hlast.resolve_left (by simp)
      have hmem : '\n' ∈ c :: cs := mem_of_getLast?' _ _ hlast'
      obtain ⟨t, r, hsplit, ht, heq⟩ := splitFirstLine_of_mem _ hmem
      have hr : r = [] ∨ r.getLast? = some '\n' := by
        cases r with
        | nil => exact Or.inl rfl
        | cons a as =>
          right
          have hlr := hlast'
          rw [heq, List.getLast?_append_cons, List.getLast?_cons_cons] at hlr
          exact hlr
      have hlen : (t ++ ['\n']).length = t.length + 1 := by simp
      simp only [scanDayAux, hsplit] at hp
      rw [heq]
      rcases hparse :
          parseIrcLine (trimEnd (buf ++ (t ++ ['\n']))) with _ | im
      · simp only [hparse] at hp
        have hs := ih r (pos + (t ++ ['\n']).length) _ hr p hp
        rw [hlen] at hs
        exact sound_step_lift t r day pos (pos + t.length + 1)
          (by omega) p hs.1 hs.2.1 hs.2.2.1 hs.2.2.2.1 hs.2.2.2.2
      · simp only [hparse] at hp
        rcases huid : extractUserId im with _ | uid
        · simp only [huid, List.nil_append] at hp
          have hs := ih r (pos + (t ++ ['\n']).length) _ hr p hp
          rw [hlen] at hs
          exact sound_step_lift t r day pos (pos + t.length + 1)
            (by omega) p hs.1 hs.2.1 hs.2.2.1 hs.2.2.2.1 hs.2.2.2.2
        · simp only [huid, List.singleton_append] at hp
          rcases List.mem_cons.mp hp with hph | hptail
          · subst hph
            refine ⟨rfl, le_refl _, ?_, ?_, Or.inl rfl⟩
            · have hlen1 : (t ++ ['\n']).length - 1 = t.length := by
                rw [hlen]
                omega
              rw [hlen1, Nat.sub_self, List.drop_zero, List.take_left]
              exact fun c hc hceq => ht (hceq ▸ hc)
            · have hlen1 : (t ++ ['\n']).length - 1 = t.length := by
                rw [hlen]
                omega
              rw [hlen1, Nat.sub_self, Nat.zero_add,
                List.get?_append_right (le_refl t.length), Nat.sub_self]
              rfl
          · have hs := ih r (pos + (t ++ ['\n']).length) _ hr p hptail
            rw [hlen] at hs
            exact sound_step_lift t r day pos (pos + t.length + 1)
              (by omega) p hs.1 hs.2.1 hs.2.2.1 hs.2.2.2.1 hs.2.2.2.2

/-- C3 (counterexample): a file whose single parseable line lacks the trailing
newline gets an index record of length 19 even though the line holds 20 bytes
and no newline at all — the source subtracts 1 from `read_bytes`
unconditionally, so the claim's final-line case fails. -/
theorem c3_counterexample_final_line_without_newline :
    scanDay 3 fileNoNewline = [("1".toList, ⟨3, 0, 19⟩)] ∧
    '\n' ∉ fileNoNewline ∧ fileNoNewline.length = 20 := by
  decide

/-- C3 (amended): every record the scan emits has `day` equal to the scanned
day, `offset` the stream position read before the line (a byte position at the
start of a line: position 0 or one past a newline), and `len` the byte count
of the line excluding its trailing newline — provided the file is
newline-terminated; a final line lacking the newline instead gets its byte
count minus one. -/
theorem c3_index_records_point_at_lines (day : Nat) (file : List Char)
    (h : file = [] ∨ file.getLast? = some '\n') :
    ∀ p ∈ scanDay day file, p.2.day = day ∧
      (∀ c ∈ (file.drop p.2.offset).take p.2.len, c ≠ '\n') ∧
      file.get? (p.2.offset + p.2.len) = some '\n' ∧
      (p.2.offset = 0 ∨ file.get? (p.2.offset - 1) = some '\n') := by
  intro p hp
  have hs := scanDayAux_sound day file.length file 0 [] h p
    (by simpa [scanDay] using hp)
  simpa using hs

/-- C3 (witness): the amended statement at the second record of a concrete
two-line file — its 20 bytes at offset 21 are newline-free and delimited by
newlines on both sides. -/
theorem c3_witness :
    ("2".toList, (⟨5, 21, 20⟩ : Index)).2.day = 5 ∧
    (∀ c ∈ (fileTwoLines.drop 21).take 20, c ≠ '\n') ∧
    fileTwoLines.get? (21 + 20) = some '\n' ∧
    ((21 : Nat) = 0 ∨ fileTwoLines.get? (21 - 1) = some '\n') := by
  have hs := c3_index_records_point_at_lines 5 fileTwoLines (by decide)
    ("2".toList, ⟨5, 21, 20⟩) (by decide)
  simpa using hs

end Theorems

end Rustlog
